import Mathlib

/-!
Shallow embedding of the request-processing pipeline of the remus_synerge
HTTP service: the per-client rate limiter, the JWT-based token service and
auth guard, the login handler, and the stateless middleware stages
(metrics, logging, request validation, timeout, client-IP resolution).
Times are modelled as integers; HTTP bodies written by the Go code as JSON
are modelled by their decoded field content.
-/

namespace RemusSynerge

/-! Rate limiter: `RateLimiter`, `Allow` and `cleanup` from the middleware
package.  The Go map from client IP to its slice of request timestamps is
modelled as an association list. -/

structure RateLimiter where
  requests : List (String × List Int)
  maxRequests : Nat
  window : Int
deriving DecidableEq

def lookupIP : List (String × List Int) → String → Option (List Int)
  | [], _ => none
  | (k, v) :: rest, ip => if k = ip then some v else lookupIP rest ip

def insertIP : List (String × List Int) → String → List Int → List (String × List Int)
  | [], ip, v => [(ip, v)]
  | (k, w) :: rest, ip, v =>
      if k = ip then (ip, v) :: rest else (k, w) :: insertIP rest ip v

/-- The Go retention test `now.Sub(t) < rl.window` for a stored timestamp. -/
def withinWindow (window now t : Int) : Bool := now - t < window

/-- Removal of old entries: keep exactly the timestamps still inside the window. -/
def pruneTimes (window now : Int) (times : List Int) : List Int :=
  times.filter (fun t => withinWindow window now t)

/-- `RateLimiter.Allow`: under the limiter lock, a first-ever identity is
recorded and admitted; otherwise old entries are pruned, the request is
rejected when the remaining count reaches `maxRequests`, and admitted (with
the current time appended) otherwise.  Returns the decision and the updated
limiter state. -/
def RateLimiter.Allow (rl : RateLimiter) (now : Int) (ip : String) : Bool × RateLimiter :=
  match lookupIP rl.requests ip with
  | none => (true, { rl with requests := insertIP rl.requests ip [now] })
  | some times =>
      let validTimes := pruneTimes rl.window now times
      if rl.maxRequests ≤ validTimes.length then
        (false, rl)
      else
        (true, { rl with requests := insertIP rl.requests ip (validTimes ++ [now]) })

/-- Background compaction sweep: prune every identity and evict identities
left with no timestamps. -/
def RateLimiter.cleanup (rl : RateLimiter) (now : Int) : RateLimiter :=
  let pruned := rl.requests.map fun p => (p.1, pruneTimes rl.window now p.2)
  { rl with requests := pruned.filter fun p => !p.2.isEmpty }

/-- Sequential run of `Allow` for one identity at the given call times
(the limiter mutex serialises concurrent callers, so any interleaving of
calls is one such sequence). -/
def allowRun (rl : RateLimiter) (ip : String) : List Int → List Bool × RateLimiter
  | [] => ([], rl)
  | t :: ts =>
      let step := rl.Allow t ip
      let rest := allowRun step.2 ip ts
      (step.1 :: rest.1, rest.2)

theorem lookupIP_insertIP : ∀ (m : List (String × List Int)) (ip : String) (v : List Int),
    lookupIP (insertIP m ip v) ip = some v
  | [], ip, v => by simp [insertIP, lookupIP]
  | (k, w) :: rest, ip, v => by
      by_cases h : k = ip
      · simp [insertIP, lookupIP, h]
      · simp [insertIP, lookupIP, h, lookupIP_insertIP rest ip v]

theorem pruneTimes_eq_self (w now : Int) (times : List Int)
    (h : ∀ b ∈ times, now - b < w) : pruneTimes w now times = times := by
  apply List.filter_eq_self.mpr
  intro b hb
  simp only [withinWindow, decide_eq_true_eq]
  exact h b hb

/-- Core invariant for the counting property: from a state already holding
`pre` timestamps for `ip` (all within the window of every upcoming call),
the next `n - pre.length` calls are admitted and the one after is refused. -/
theorem allowRun_from_filled (n : Nat) (w : Int) (ip : String) :
    ∀ (ts pre : List Int) (rl : RateLimiter),
      rl.maxRequests = n → rl.window = w →
      lookupIP rl.requests ip = some pre →
      pre.length ≤ n → pre.length + ts.length = n + 1 →
      (∀ a ∈ ts, ∀ b ∈ pre, a - b < w) →
      (∀ a ∈ ts, ∀ b ∈ ts, a - b < w) →
      (allowRun rl ip ts).1 = List.replicate (n - pre.length) true ++ [false] := by
  intro ts
  induction ts with
  | nil =>
      intro pre rl _ _ _ hle hlen _ _
      simp only [List.length_nil] at hlen
      omega
  | cons t ts ih =>
      intro pre rl hmax hwin hlook hle hlen hpre hts
      have hprune : pruneTimes rl.window t pre = pre := by
        apply pruneTimes_eq_self
        intro b hb
        rw [hwin]
        exact hpre t (by simp) b hb
      rcases Nat.lt_or_ge pre.length n with hlt | hge
      · -- under the limit: this call is admitted, recurse
        have hcond : ¬ rl.maxRequests ≤ (pruneTimes rl.window t pre).length := by
          rw [hprune, hmax]; omega
        have hstep : rl.Allow t ip =
            (true, { rl with requests := insertIP rl.requests ip (pre ++ [t]) }) := by
          rw [RateLimiter.Allow, hlook]
          simp [hprune, hcond]
          omega
        have htail := ih (pre ++ [t])
          { rl with requests := insertIP rl.requests ip (pre ++ [t]) }
          hmax hwin (lookupIP_insertIP _ _ _)
          (by simp; omega)
          (by simp at hlen ⊢; omega)
          (by
            intro a ha b hb
            rcases List.mem_append.mp hb with hb' | hb'
            · exact hpre a (by simp [ha]) b hb'
            · have : b = t := by simpa using hb'
              subst this
              exact hts a (by simp [ha]) b (by simp))
          (by
            intro a ha b hb
            exact hts a (by simp [ha]) b (by simp [hb]))
        simp only [allowRun, hstep, htail]
        have hrep : n - pre.length = (n - (pre ++ [t]).length) + 1 := by
          simp; omega
        rw [hrep, List.replicate_succ]
        simp
      · -- at the limit: this call is refused and it is the last one
        have heq : pre.length = n := by omega
        have hcond : rl.maxRequests ≤ (pruneTimes rl.window t pre).length := by
          rw [hprune, hmax]; omega
        have hstep : rl.Allow t ip = (false, rl) := by
          rw [RateLimiter.Allow, hlook]
          simp [hprune, hcond]
          omega
        have hts0 : ts = [] := by
          have : ts.length = 0 := by simp at hlen; omega
          exact List.eq_nil_of_length_eq_zero this
        subst hts0
        simp [allowRun, hstep, heq]

/-- Claim C1: starting from a limiter that has never seen the identity,
`maxRequests + 1` calls to `Allow` whose times all lie within one window of
each other produce exactly `maxRequests` admissions followed by one refusal
(for any positive `maxRequests`; the Go mutex makes the prune-check-append
sequence atomic, so every interleaving is one such sequential run). -/
theorem rateLimiter_window_counting (n : Nat) (w : Int) (ip : String)
    (t0 : Int) (ts : List Int)
    (hn : 1 ≤ n)
    (hlen : ts.length = n)
    (hwin : ∀ a ∈ t0 :: ts, ∀ b ∈ t0 :: ts, a - b < w) :
    (allowRun ⟨[], n, w⟩ ip (t0 :: ts)).1 = List.replicate n true ++ [false] := by
  have hstep : RateLimiter.Allow ⟨[], n, w⟩ t0 ip =
      (true, ⟨[(ip, [t0])], n, w⟩) := by
    rw [RateLimiter.Allow]
    simp [lookupIP, insertIP]
  have htail := allowRun_from_filled n w ip ts [t0] ⟨[(ip, [t0])], n, w⟩
    rfl rfl (by simp [lookupIP])
    (by simpa using hn)
    (by simp only [List.length_cons, List.length_nil, hlen]; omega)
    (by
      intro a ha b hb
      have hb' : b = t0 := by simpa using hb
      subst hb'
      exact hwin a (by simp [ha]) b (by simp))
    (by
      intro a ha b hb
      exact hwin a (by simp [ha]) b (by simp [hb]))
  simp only [allowRun, hstep, htail]
  have : n = (n - 1) + 1 := by omega
  rw [this]
  simp [List.replicate_succ]

/-- Witness for C1 at `maxRequests = 2`, `window = 10`, call times 0, 1, 2. -/
theorem rateLimiter_window_counting_witness :
    (allowRun ⟨[], 2, 10⟩ "client" [0, 1, 2]).1 = List.replicate 2 true ++ [false] :=
  rateLimiter_window_counting 2 10 "client" 0 [1, 2] (by decide) (by decide) (by decide)

/-- Claim C8: the limiter is a trailing-window approximation, not a strict
token bucket: there is a configuration and a call sequence in which
`2 * maxRequests` calls, all lying inside one interval of length `window`,
are every one admitted (three at the end of one window, three right after
the old timestamps age out). -/
theorem rateLimiter_window_boundary_burst :
    ∃ (n : Nat) (w : Int) (ip : String) (ts : List Int),
      1 ≤ n ∧
      ts.length = 2 * n ∧
      (∀ a ∈ ts, ∀ b ∈ ts, a - b ≤ w) ∧
      (allowRun ⟨[], n, w⟩ ip ts).1 = List.replicate (2 * n) true :=
  ⟨3, 10, "client", [9, 9, 9, 19, 19, 19], by decide, by decide, by decide, by decide⟩

/-! Token service: `AuthService.GenerateToken` and `AuthService.ValidateToken`
from the middleware package.  Times are Unix seconds.  The HMAC-SHA256
primitive of the jwt-go library is an external collaborator, modelled by an
arbitrary keyed function `mac` over the signed claims; the service logic
(claim construction, 24h TTL, algorithm check, signature comparison, expiry
and issued-at checks of jwt-go `StandardClaims.Valid`) is embedded. -/

structure JWTClaims where
  userID : Nat
  username : String
  email : String
  expiresAt : Int
  issuedAt : Int
  issuer : String
  subject : String
deriving DecidableEq

/-- Declared signing algorithm of a token. -/
inductive SigIAlg where
  | HS256
  | RS256
deriving DecidableEq

/-- A parsed token: payload, declared algorithm, signature value. -/
structure Token where
  claims : JWTClaims
  alg : SigIAlg
  sig : Nat
deriving DecidableEq

inductive TokenError where
  | badAlg
  | expired
  | usedBeforeIssued
  | invalidSignature
deriving DecidableEq

/-- `GenerateToken`: claims carry the user id, username and email, expire
24 hours after `now`, and are signed with HS256; the expiration time is also
returned to the caller. -/
def GenerateToken (mac : JWTClaims → Nat) (now : Int) (userID : Nat)
    (username email : String) : Token × Int :=
  let exp := now + 24 * 3600
  let c : JWTClaims :=
    { userID := userID, username := username, email := email,
      expiresAt := exp, issuedAt := now,
      issuer := "remus_synerge", subject := "user_" ++ toString userID }
  ({ claims := c, alg := SigIAlg.HS256, sig := mac c }, exp)

/-- `ValidateToken`: the key callback rejects any non-HMAC declared
algorithm; jwt-go then checks the standard claims (expired when
`exp < now`, used-before-issued when `now < iat`) and the signature. -/
def ValidateToken (mac : JWTClaims → Nat) (now : Int) (t : Token) :
    Except TokenError JWTClaims :=
  if t.alg ≠ SigIAlg.HS256 then Except.error TokenError.badAlg
  else if t.claims.expiresAt < now then Except.error TokenError.expired
  else if now < t.claims.issuedAt then Except.error TokenError.usedBeforeIssued
  else if t.sig ≠ mac t.claims then Except.error TokenError.invalidSignature
  else Except.ok t.claims

/-- Claim C2: round-trip.  A token issued at `iss` validates to the original
user id, username and email at any time `vt` with `iss ≤ vt` strictly before
the returned `expiresAt` (= `iss` plus the 24h TTL), and validation strictly
after `expiresAt` reports the expired error — for every signing function. -/
theorem token_roundtrip (mac : JWTClaims → Nat) (iss vt : Int) (uid : Nat)
    (un em : String) :
    (iss ≤ vt → vt < (GenerateToken mac iss uid un em).2 →
      ∃ c, ValidateToken mac vt (GenerateToken mac iss uid un em).1 = Except.ok c ∧
        c.userID = uid ∧ c.username = un ∧ c.email = em) ∧
    ((GenerateToken mac iss uid un em).2 < vt →
      ValidateToken mac vt (GenerateToken mac iss uid un em).1 =
        Except.error TokenError.expired) := by
  have p1 : (GenerateToken mac iss uid un em).1.alg = SigIAlg.HS256 := rfl
  have p2 : (GenerateToken mac iss uid un em).1.claims.expiresAt = iss + 24 * 3600 := rfl
  have p3 : (GenerateToken mac iss uid un em).1.claims.issuedAt = iss := rfl
  have p4 : (GenerateToken mac iss uid un em).1.sig =
      mac (GenerateToken mac iss uid un em).1.claims := rfl
  have p5 : (GenerateToken mac iss uid un em).2 = iss + 24 * 3600 := rfl
  constructor
  · intro h1 h2
    have h2' : vt < iss + 24 * 3600 := by rw [← p5]; exact h2
    refine ⟨(GenerateToken mac iss uid un em).1.claims, ?_, rfl, rfl, rfl⟩
    rw [ValidateToken]
    rw [if_neg (by rw [p1]; simp), if_neg (by rw [p2]; omega),
      if_neg (by rw [p3]; omega), if_neg (by rw [p4]; simp)]
  · intro h
    have h' : iss + 24 * 3600 < vt := by rw [← p5]; exact h
    rw [ValidateToken]
    rw [if_neg (by rw [p1]; simp), if_pos (by rw [p2]; omega)]

/-- Witness for C2: issue at time 0, validate at time 100 (one case of each
hypothesis chain), with the trivial signing function. -/
theorem token_roundtrip_witness :
    ∃ c, ValidateToken (fun _ => 0) 100
        (GenerateToken (fun _ => 0) 0 7 "alice" "a@x.io").1 = Except.ok c ∧
      c.userID = 7 ∧ c.username = "alice" ∧ c.email = "a@x.io" :=
  (token_roundtrip (fun _ => 0) 0 100 7 "alice" "a@x.io").1 (by decide) (by decide)

/-! Auth guard: `AuthMiddleware` from auth.go.  The downstream handler and
the token validator are parameters; `AuthDecision.rejected` records a 401
short-circuit (the inner handler is not invoked), `AuthDecision.passed`
records that the decoded claims were attached to the request context and the
inner handler invoked. -/

inductive AuthDecision where
  | rejected (status : Nat) (message : String)
  | passed (claims : JWTClaims)
deriving DecidableEq

/-- Character-list prefix test, the Go `strings.HasPrefix` over a string's
characters (all the prefixes used here are ASCII, so Go byte indexing and
character indexing agree). -/
def charsPref : List Char → List Char → Bool
  | [], _ => true
  | _ :: _, [] => false
  | a :: as, b :: bs => a = b && charsPref as bs

/-- Go `strings.HasPrefix s pre`. -/
def strStarts (s pre : String) : Bool := charsPref pre.data s.data

/-- Go slice `s[n:]` over characters. -/
def strDrop (s : String) (n : Nat) : String := ⟨s.data.drop n⟩

/-- `AuthMiddleware` on a request whose `Authorization` header is
`authHeader` (the empty string when the header is absent, as in Go). -/
def AuthMiddleware (validate : String → Option JWTClaims)
    (authHeader : String) : AuthDecision :=
  if authHeader = "" then
    AuthDecision.rejected 401 "Missing authorization header"
  else if !(strStarts authHeader "Bearer ") then
    AuthDecision.rejected 401 "Invalid authorization header format"
  else
    let tokenString := strDrop authHeader 7
    if tokenString = "" then
      AuthDecision.rejected 401 "Missing token"
    else
      match validate tokenString with
      | none => AuthDecision.rejected 401 "Invalid token"
      | some c => AuthDecision.passed c

/-- Counterexample to C4 as stated: the header `"Bearer "` (the prefix with
an empty token) is rejected 401 with the reason `"Missing token"`, a fourth
reason outside the claimed set of missing-header / invalid-format /
invalid-token responses. -/
theorem authMiddleware_fourth_reason :
    AuthMiddleware (fun _ => none) "Bearer " =
      AuthDecision.rejected 401 "Missing token" ∧
    ("Missing token" ≠ "Missing authorization header" ∧
     "Missing token" ≠ "Invalid authorization header format" ∧
     "Missing token" ≠ "Invalid token") := by
  constructor
  · decide
  · exact ⟨by decide, by decide, by decide⟩

/-- Claim C4 amended: a missing header, a header without the `Bearer `
prefix, an empty token after the prefix, and a token failing validation are
each rejected 401 with the corresponding reason (now four reasons) and the
inner handler is not invoked; a token that validates leads to the decoded
claims being attached and the inner handler invoked. -/
theorem authMiddleware_guard (validate : String → Option JWTClaims)
    (hdr : String) :
    (hdr = "" →
      AuthMiddleware validate hdr =
        AuthDecision.rejected 401 "Missing authorization header") ∧
    (hdr ≠ "" → strStarts hdr "Bearer " = false →
      AuthMiddleware validate hdr =
        AuthDecision.rejected 401 "Invalid authorization header format") ∧
    (strStarts hdr "Bearer " = true → strDrop hdr 7 = "" →
      AuthMiddleware validate hdr = AuthDecision.rejected 401 "Missing token") ∧
    (strStarts hdr "Bearer " = true → strDrop hdr 7 ≠ "" →
      validate (strDrop hdr 7) = none →
      AuthMiddleware validate hdr = AuthDecision.rejected 401 "Invalid token") ∧
    (∀ c, strStarts hdr "Bearer " = true → strDrop hdr 7 ≠ "" →
      validate (strDrop hdr 7) = some c →
      AuthMiddleware validate hdr = AuthDecision.passed c) := by
  have hne : strStarts hdr "Bearer " = true → hdr ≠ "" := by
    intro hs he
    subst he
    exact absurd hs (by decide)
  refine ⟨?_, ?_, ?_, ?_, ?_⟩
  · intro h
    simp [AuthMiddleware, h]
  · intro h1 h2
    simp [AuthMiddleware, h1, h2]
  · intro h1 h2
    simp [AuthMiddleware, hne h1, h1, h2]
  · intro h1 h2 h3
    simp [AuthMiddleware, hne h1, h1, h2, h3]
  · intro c h1 h2 h3
    simp [AuthMiddleware, hne h1, h1, h2, h3]

/-- Witness for C4 (amended): the five cases at concrete headers. -/
theorem authMiddleware_guard_witness :
    AuthMiddleware (fun _ => none) "" =
      AuthDecision.rejected 401 "Missing authorization header" :=
  (authMiddleware_guard (fun _ => none) "").1 rfl

/-! Login handler: `AuthHandler.Login`.  The `UserRepository` lookup and
bcrypt verification are external collaborators, passed as functions; JSON
bodies are modelled by their decoded fields (`ErrorBody` is the shape
written by `sendErrorResponse`: `error` is `http.StatusText` of the code,
`message` the detail). -/

structure User where
  id : Nat
  username : String
  email : String
  password : String
deriving DecidableEq

structure LoginRequest where
  email : String
  password : String
deriving DecidableEq

structure UserInfo where
  id : Nat
  username : String
  email : String
deriving DecidableEq

structure ErrorBody where
  error : String
  message : String
deriving DecidableEq

/-- The Go `http.StatusText` reason phrases for the codes this service
writes. -/
def statusText : Nat → String
  | 400 => "Bad Request"
  | 401 => "Unauthorized"
  | 404 => "Not Found"
  | 408 => "Request Timeout"
  | 500 => "Internal Server Error"
  | _ => ""

inductive LoginResult where
  | errorResp (status : Nat) (body : ErrorBody)
  | success (token : Token) (expiresAt : Int) (user : UserInfo)
deriving DecidableEq

/-- `AuthHandler.sendErrorResponse`. -/
def sendErrorResponse (status : Nat) (message : String) : LoginResult :=
  LoginResult.errorResp status ⟨statusText status, message⟩

/-- `AuthHandler.Login`: decode the body, reject empty fields, look the user
up by email, verify the password, and on success issue a token.  `lookup`
models `userRepo.GetUserByEmail` (`none` is the error path), `verify` models
`authService.ComparePassword` returning no error. -/
def Login (mac : JWTClaims → Nat) (now : Int)
    (lookup : String → Option User) (verify : String → String → Bool)
    (body : Option LoginRequest) : LoginResult :=
  match body with
  | none => sendErrorResponse 400 "Invalid request body"
  | some req =>
      if req.email = "" ∨ req.password = "" then
        sendErrorResponse 400 "Email and password are required"
      else
        match lookup req.email with
        | none => sendErrorResponse 401 "Invalid credentials"
        | some user =>
            if !(verify user.password req.password) then
              sendErrorResponse 401 "Invalid credentials"
            else
              let issued := GenerateToken mac now user.id user.username user.email
              LoginResult.success issued.1 issued.2 ⟨user.id, user.username, user.email⟩

/-- Claim C5: a login whose email is unknown to the store and a login whose
email exists but whose password fails verification produce the very same
observable response, 401 with body error `Unauthorized` and message
`Invalid credentials` — so the response reveals nothing about whether the
email exists. -/
theorem login_unknown_email_indistinguishable (mac : JWTClaims → Nat)
    (now : Int) (lookupA lookupB : String → Option User)
    (verify : String → String → Bool) (req : LoginRequest) (u : User)
    (hem : req.email ≠ "") (hpw : req.password ≠ "")
    (hA : lookupA req.email = none)
    (hB : lookupB req.email = some u)
    (hv : verify u.password req.password = false) :
    Login mac now lookupA verify (some req) =
      Login mac now lookupB verify (some req) ∧
    Login mac now lookupA verify (some req) =
      LoginResult.errorResp 401 ⟨"Unauthorized", "Invalid credentials"⟩ := by
  have hfields : ¬ (req.email = "" ∨ req.password = "") := by
    intro h
    rcases h with h | h
    · exact hem h
    · exact hpw h
  have hruns : Login mac now lookupA verify (some req) =
      LoginResult.errorResp 401 ⟨"Unauthorized", "Invalid credentials"⟩ := by
    simp only [Login]
    rw [if_neg hfields, hA]
    rfl
  have hruns' : Login mac now lookupB verify (some req) =
      LoginResult.errorResp 401 ⟨"Unauthorized", "Invalid credentials"⟩ := by
    simp only [Login]
    rw [if_neg hfields, hB]
    simp only [hv]
    rfl
  exact ⟨hruns.trans hruns'.symm, hruns⟩

/-- Witness for C5: a concrete pair of stores, one without the email, one
with it under a wrong password. -/
theorem login_unknown_email_indistinguishable_witness :
    Login (fun _ => 0) 0 (fun _ => none)
        (fun h p => h = p) (some ⟨"a@x.io", "pw"⟩) =
      Login (fun _ => 0) 0 (fun _ => some ⟨1, "alice", "a@x.io", "other"⟩)
        (fun h p => h = p) (some ⟨"a@x.io", "pw"⟩) :=
  (login_unknown_email_indistinguishable (fun _ => 0) 0 (fun _ => none)
    (fun _ => some ⟨1, "alice", "a@x.io", "other"⟩) (fun h p => h = p)
    ⟨"a@x.io", "pw"⟩ ⟨1, "alice", "a@x.io", "other"⟩
    (by decide) (by decide) rfl rfl (by decide)).1

/-! Metrics: the `Metrics` aggregate, `RecordRequest` and
`MetricsMiddleware`, with `RecoveryMiddleware` wrapped outside as in the
server's middleware chain.  A handler either completes with a status code
or panics; the status-code histogram key and counters follow
`RecordRequest`. -/

structure Metrics where
  requestCount : List (String × Int)
  requestDuration : List (String × List Int)
  statusCodeCount : List (Nat × Int)
  activeConnections : Int
  totalConnections : Int
  errorCount : Int
  averageResponseTime : Int
deriving DecidableEq

def NewMetrics : Metrics := ⟨[], [], [], 0, 0, 0, 0⟩

def bumpCount (m : List (String × Int)) (k : String) : List (String × Int) :=
  match m with
  | [] => [(k, 1)]
  | (k', v) :: rest => if k' = k then (k, v + 1) :: rest else (k', v) :: bumpCount rest k

def bumpStatus (m : List (Nat × Int)) (k : Nat) : List (Nat × Int) :=
  match m with
  | [] => [(k, 1)]
  | (k', v) :: rest => if k' = k then (k, v + 1) :: rest else (k', v) :: bumpStatus rest k

def lookupDur (m : List (String × List Int)) (k : String) : List Int :=
  match m with
  | [] => []
  | (k', v) :: rest => if k' = k then v else lookupDur rest k

def insertDur (m : List (String × List Int)) (k : String) (v : List Int) :
    List (String × List Int) :=
  match m with
  | [] => [(k, v)]
  | (k', w) :: rest => if k' = k then (k, v) :: rest else (k', w) :: insertDur rest k v

/-- `Metrics.RecordRequest`: bump the per-route counter, append the duration
to the route's sample list keeping only the last 100, bump the status-code
histogram, count an error for any status at least 400, bump total
connections and recompute the global average duration over all retained
samples. -/
def Metrics.RecordRequest (m : Metrics) (method path : String)
    (statusCode : Nat) (duration : Int) : Metrics :=
  let key := method ++ " " ++ path
  let durs := lookupDur m.requestDuration key ++ [duration]
  let durs := if 100 < durs.length then durs.drop (durs.length - 100) else durs
  let newDur := insertDur m.requestDuration key durs
  let total := (newDur.map (fun p => p.2.foldl (· + ·) 0)).foldl (· + ·) 0
  let count := (newDur.map (fun p => (p.2.length : Int))).foldl (· + ·) 0
  { m with
    requestCount := bumpCount m.requestCount key
    requestDuration := newDur
    statusCodeCount := bumpStatus m.statusCodeCount statusCode
    errorCount := if 400 ≤ statusCode then m.errorCount + 1 else m.errorCount
    totalConnections := m.totalConnections + 1
    averageResponseTime := if 0 < count then total / count else m.averageResponseTime }

/-- Outcome of running the inner chain for one request: a final status code,
or an escaping panic. -/
inductive HandlerOutcome where
  | completed (status : Nat)
  | panicked
deriving DecidableEq

/-- `MetricsMiddleware`: increment the active-connection gauge, run the
inner chain (captured status defaults to 200), then record the request and
decrement the gauge.  A panic in the inner chain propagates out immediately,
before `RecordRequest` and before the decrement — none of these are
deferred in the Go code. -/
def MetricsMiddleware (method path : String) (duration : Int)
    (inner : HandlerOutcome) (m : Metrics) : Metrics × HandlerOutcome :=
  let m1 := { m with activeConnections := m.activeConnections + 1 }
  match inner with
  | HandlerOutcome.panicked => (m1, HandlerOutcome.panicked)
  | HandlerOutcome.completed status =>
      let m2 := m1.RecordRequest method path status duration
      ({ m2 with activeConnections := m2.activeConnections - 1 },
        HandlerOutcome.completed status)

/-- `RecoveryMiddleware`, outermost in the chain: a recovered panic becomes
a 500 response; it does not touch the metrics state. -/
def RecoveryMiddleware (run : Metrics → Metrics × HandlerOutcome)
    (m : Metrics) : Metrics × HandlerOutcome :=
  match run m with
  | (m', HandlerOutcome.panicked) => (m', HandlerOutcome.completed 500)
  | (m', HandlerOutcome.completed s) => (m', HandlerOutcome.completed s)

/-- Claim C3 fails on the code: for a request whose inner handler panics,
the recovery middleware converts the escape to a 500, but the
active-connection gauge — incremented on entry and decremented only on the
straight-line exit path, with no defer — is left one above its value before
the request.  Evaluated at the failing input: gauge 0 before, 1 after. -/
theorem metrics_gauge_leaks_on_panic :
    (RecoveryMiddleware (MetricsMiddleware "GET" "/api/v1/users/5" 1
        HandlerOutcome.panicked) NewMetrics).2 = HandlerOutcome.completed 500 ∧
    (RecoveryMiddleware (MetricsMiddleware "GET" "/api/v1/users/5" 1
        HandlerOutcome.panicked) NewMetrics).1.activeConnections =
      NewMetrics.activeConnections + 1 := by
  exact ⟨rfl, rfl⟩

/-! Logging middleware (`LoggingMiddleware`): one start line and one
completion line per request; zerolog levels are explicit in the calls. -/

inductive LogLevel where
  | debug
  | info
  | warn
  | error
deriving DecidableEq

structure LogLine where
  level : LogLevel
  msg : String
deriving DecidableEq

/-- The request-start line, `logger.Info() ... Msg("Request started")`. -/
def startLine : LogLine := ⟨LogLevel.info, "Request started"⟩

/-- The completion line: the event is built once with `logger.Info()` and
only the message text is switched on the captured status-code band. -/
def completionLine (status : Nat) : LogLine :=
  ⟨LogLevel.info,
    if 500 ≤ status then "Request completed with server error"
    else if 400 ≤ status then "Request completed with client error"
    else if 300 ≤ status then "Request completed with redirect"
    else "Request completed successfully"⟩

/-- The lines `LoggingMiddleware` emits for one request.  The start line is
logged before `next.ServeHTTP`; the completion line sits after that call
with no defer, so it is reached only when the inner chain returns — with
the wrapper's captured status, which defaulted to 200 if the handler never
set one — and a panic unwinding through the middleware emits no completion
line at all. -/
def LoggingMiddleware (inner : HandlerOutcome) : List LogLine :=
  match inner with
  | HandlerOutcome.completed status => [startLine, completionLine status]
  | HandlerOutcome.panicked => [startLine]

/-- A completion line, as opposed to the start line. -/
def isCompletionLine (l : LogLine) : Bool := l.msg ≠ "Request started"

/-- The level the claim prescribes for a status band. -/
def claimedBandLevel (status : Nat) : LogLevel :=
  if 500 ≤ status then LogLevel.error
  else if 400 ≤ status then LogLevel.warn
  else LogLevel.info

/-- Counterexample to C7 as stated, on both counts.  A request finishing
with status 500 gets its single completion line at info level, not at the
error level the claim prescribes (the Go code builds the event with
`logger.Info()` and the status switch only picks the message text); and a
request whose inner chain panics gets no completion line at all — the
completion logging sits after `next.ServeHTTP` with no defer. -/
theorem logging_level_not_banded :
    ((LoggingMiddleware (HandlerOutcome.completed 500)).filter
        isCompletionLine = [completionLine 500]) ∧
    (completionLine 500).level = LogLevel.info ∧
    claimedBandLevel 500 = LogLevel.error ∧
    (completionLine 500).level ≠ claimedBandLevel 500 ∧
    (LoggingMiddleware HandlerOutcome.panicked).filter isCompletionLine = [] := by
  exact ⟨by decide, rfl, rfl, by decide, by decide⟩

/-- Claim C7 amended: for every request whose inner chain completes —
with the captured status, defaulted to 200 when the handler never set
one — exactly one completion line is emitted, always at info level, the
status band selecting only its message text (server error at 500 and
above, client error at 400 and above, redirect at 300 and above, success
otherwise); a panic unwinding through the middleware emits no completion
line, the request then being finished by the recovery middleware. -/
theorem logging_one_completion_line (status : Nat) :
    (LoggingMiddleware (HandlerOutcome.completed status)).filter
        isCompletionLine = [completionLine status] ∧
    (completionLine status).level = LogLevel.info ∧
    ((LoggingMiddleware (HandlerOutcome.completed status)).filter
        (fun l => l.level = LogLevel.info)).length = 2 ∧
    (LoggingMiddleware HandlerOutcome.panicked).filter isCompletionLine = [] := by
  refine ⟨?_, rfl, ?_, by decide⟩
  · simp [LoggingMiddleware, isCompletionLine, startLine, completionLine]
    by_cases h5 : 500 ≤ status
    · simp [h5]
    · by_cases h4 : 400 ≤ status
      · simp [h5, h4]
      · by_cases h3 : 300 ≤ status
        · simp [h5, h4, h3]
        · simp [h5, h4, h3]
  · simp [LoggingMiddleware, startLine, completionLine]

/-! Request validation middleware (`RequestValidationMiddleware`): declared
content length against the 1 MiB limit, then content type on bodied
methods. -/

structure ValidationRequest where
  method : String
  contentLength : Int
  contentType : String
deriving DecidableEq

inductive MWDecision where
  | rejected (status : Nat) (body : ErrorBody)
  | forwarded
deriving DecidableEq

/-- `RequestValidationMiddleware`: 413 when the declared content length
exceeds `1024*1024`; then, for POST and PUT, 415 when the Content-Type is
non-empty and does not start with `application/json`; otherwise the inner
handler runs (`forwarded`). -/
def RequestValidationMiddleware (r : ValidationRequest) : MWDecision :=
  if 1024 * 1024 < r.contentLength then
    MWDecision.rejected 413 ⟨"Request too large", "Request body exceeds maximum size"⟩
  else if (r.method = "POST" ∨ r.method = "PUT") ∧ r.contentType ≠ "" ∧
      strStarts r.contentType "application/json" = false then
    MWDecision.rejected 415
      ⟨"Unsupported media type", "Content-Type must be application/json"⟩
  else
    MWDecision.forwarded

/-- Counterexample to C9 as stated: a POST whose Content-Type header is
empty — which is not JSON — is forwarded to the inner handler rather than
rejected 415, because the Go code only rejects a *non-empty* non-JSON
Content-Type. -/
theorem requestValidation_empty_content_type_forwarded :
    RequestValidationMiddleware ⟨"POST", 10, ""⟩ = MWDecision.forwarded ∧
    strStarts "" "application/json" = false := by
  exact ⟨by decide, by decide⟩

/-- Claim C9 amended: every request with declared body over 1 MiB is
rejected 413; every POST or PUT whose Content-Type is non-empty and does
not start with `application/json` is rejected 415; in both cases the inner
handler is not invoked.  A bodied request with an empty (absent)
Content-Type is forwarded. -/
theorem requestValidation_guard (r : ValidationRequest) :
    (1024 * 1024 < r.contentLength →
      RequestValidationMiddleware r =
        MWDecision.rejected 413
          ⟨"Request too large", "Request body exceeds maximum size"⟩) ∧
    (r.contentLength ≤ 1024 * 1024 → (r.method = "POST" ∨ r.method = "PUT") →
      r.contentType ≠ "" → strStarts r.contentType "application/json" = false →
      RequestValidationMiddleware r =
        MWDecision.rejected 415
          ⟨"Unsupported media type", "Content-Type must be application/json"⟩) ∧
    (r.contentLength ≤ 1024 * 1024 → r.contentType = "" →
      RequestValidationMiddleware r = MWDecision.forwarded) := by
  refine ⟨?_, ?_, ?_⟩
  · intro h
    simp only [RequestValidationMiddleware]
    rw [if_pos h]
  · intro h1 h2 h3 h4
    simp only [RequestValidationMiddleware]
    rw [if_neg (by omega), if_pos ⟨h2, h3, h4⟩]
  · intro h1 h2
    simp only [RequestValidationMiddleware]
    rw [if_neg (by omega), if_neg (by simp [h2])]

/-- Witness for C9 (amended): a 2 MB POST is rejected 413. -/
theorem requestValidation_guard_witness :
    RequestValidationMiddleware ⟨"POST", 2000000, "application/json"⟩ =
      MWDecision.rejected 413
        ⟨"Request too large", "Request body exceeds maximum size"⟩ :=
  (requestValidation_guard ⟨"POST", 2000000, "application/json"⟩).1 (by decide)

/-! Timeout guard (`TimeoutMiddleware`): the inner chain runs on its own
goroutine against a 30s deadline; the select observes whichever of the
completion channel and the context deadline fires first.  The response
writer `w` is shared between the two tasks with no guard, so writes from
both reach it in schedule order. -/

structure WriteEvent where
  status : Nat
  body : ErrorBody
deriving DecidableEq

/-- The 408 response the deadline branch writes. -/
def timeoutEvent : WriteEvent :=
  ⟨408, ⟨"Request timeout", "Request took too long to process"⟩⟩

/-- Which of the two select branches fires first for a given request. -/
inductive TimeoutRace where
  | handlerFirst
  | deadlineFirst
deriving DecidableEq

/-- Writes reaching the shared response writer.  When the handler finishes
first its writes are the response; when the deadline fires first the guard
writes the 408 and the abandoned goroutine's writes (`handlerWrites`, a
handler that overruns the deadline and writes later) still reach the same
unguarded writer afterwards. -/
def TimeoutMiddleware (handlerWrites : List WriteEvent) :
    TimeoutRace → List WriteEvent
  | TimeoutRace.handlerFirst => handlerWrites
  | TimeoutRace.deadlineFirst => timeoutEvent :: handlerWrites

/-- Counterexample to C6 as stated: when the deadline fires first and the
abandoned handler later writes a 200, the shared writer receives both
writes — the late write is not suppressed, there is no single-write-wins
guard in the code. -/
theorem timeout_late_write_not_suppressed :
    TimeoutMiddleware [⟨200, ⟨"", "late handler output"⟩⟩]
        TimeoutRace.deadlineFirst =
      [timeoutEvent, ⟨200, ⟨"", "late handler output"⟩⟩] ∧
    TimeoutMiddleware [⟨200, ⟨"", "late handler output"⟩⟩]
        TimeoutRace.deadlineFirst ≠ [timeoutEvent] := by
  exact ⟨rfl, by decide⟩

/-- Claim C6 amended: when the deadline elapses before the handler
completes, the guard does write the 408 response first (the client is
answered, never left hanging), but the abandoned handler's eventual writes
are not suppressed: every one of them also reaches the shared, unguarded
response writer. -/
theorem timeout_guard (hw : List WriteEvent) (race : TimeoutRace) :
    (race = TimeoutRace.deadlineFirst →
      (TimeoutMiddleware hw race).head? = some timeoutEvent ∧
      hw ⊆ TimeoutMiddleware hw race) ∧
    (race = TimeoutRace.handlerFirst → TimeoutMiddleware hw race = hw) := by
  constructor
  · intro h
    subst h
    refine ⟨rfl, ?_⟩
    intro x hx
    exact List.mem_cons_of_mem _ hx
  · intro h
    subst h
    rfl

/-- Witness for C6 (amended): the deadline branch at a concrete late
write. -/
theorem timeout_guard_witness :
    (TimeoutMiddleware [⟨204, ⟨"", ""⟩⟩] TimeoutRace.deadlineFirst).head? =
        some timeoutEvent ∧
      [⟨204, ⟨"", ""⟩⟩] ⊆
        TimeoutMiddleware [⟨204, ⟨"", ""⟩⟩] TimeoutRace.deadlineFirst :=
  (timeout_guard [⟨204, ⟨"", ""⟩⟩] TimeoutRace.deadlineFirst).1 rfl

/-! Client identity resolution (`getClientIP`). -/

structure IPRequest where
  xForwardedFor : String
  xRealIP : String
  remoteAddr : String
deriving DecidableEq

/-- Whitespace as trimmed by Go `strings.TrimSpace` (ASCII cases). -/
def isSpaceChar (c : Char) : Bool :=
  c = ' ' || c = '\t' || c = '\n' || c = '\r' || c = '\x0b' || c = '\x0c'

def trimChars (cs : List Char) : List Char :=
  ((cs.dropWhile isSpaceChar).reverse.dropWhile isSpaceChar).reverse

/-- Go `strings.TrimSpace`. -/
def strTrim (s : String) : String := ⟨trimChars s.data⟩

/-- Go `strings.Split(s, ",")` over characters: never empty, one entry per
comma-separated segment. -/
def splitComma : List Char → List (List Char)
  | [] => [[]]
  | c :: cs =>
      let r := splitComma cs
      if c = ',' then [] :: r
      else (c :: r.headD []) :: r.tail

/-- Characters strictly before the last colon, when the list has one. -/
def beforeLastColon : List Char → Option (List Char)
  | [] => none
  | c :: cs =>
      match beforeLastColon cs with
      | some r => some (c :: r)
      | none => if c = ':' then some [] else none

/-- Go `if colon := strings.LastIndex(ip, ":"); colon != -1` followed by the
slice `ip[:colon]`; a string without a colon is returned unchanged. -/
def stripLastColon (s : String) : String :=
  match beforeLastColon s.data with
  | some r => ⟨r⟩
  | none => s

/-- `getClientIP`: first comma entry of X-Forwarded-For (trimmed) when that
header is non-empty, else X-Real-IP when non-empty, else RemoteAddr with
everything from its last colon removed.  (`strings.Split` never returns an
empty slice, so the Go `len(ips) > 0` test always passes.) -/
def getClientIP (r : IPRequest) : String :=
  if r.xForwardedFor ≠ "" then
    strTrim ⟨(splitComma r.xForwardedFor.data).headD []⟩
  else if r.xRealIP ≠ "" then r.xRealIP
  else stripLastColon r.remoteAddr

/-- Claim C10: the identity is resolved as the trimmed first
comma-separated X-Forwarded-For entry, else X-Real-IP, else RemoteAddr
truncated at its last colon; and whenever either header is non-empty the
resolved identity depends only on the two client-supplied headers — two
requests agreeing on them get the same identity whatever their RemoteAddr,
so the rate-limiting key is entirely client-controlled. -/
theorem getClientIP_resolution (r : IPRequest) :
    (r.xForwardedFor ≠ "" →
      getClientIP r = strTrim ⟨(splitComma r.xForwardedFor.data).headD []⟩) ∧
    (r.xForwardedFor = "" → r.xRealIP ≠ "" → getClientIP r = r.xRealIP) ∧
    (r.xForwardedFor = "" → r.xRealIP = "" →
      getClientIP r = stripLastColon r.remoteAddr) ∧
    (∀ r' : IPRequest, r'.xForwardedFor = r.xForwardedFor →
      r'.xRealIP = r.xRealIP → (r.xForwardedFor ≠ "" ∨ r.xRealIP ≠ "") →
      getClientIP r' = getClientIP r) := by
  refine ⟨?_, ?_, ?_, ?_⟩
  · intro h
    simp [getClientIP, h]
  · intro h1 h2
    simp [getClientIP, h1, h2]
  · intro h1 h2
    simp [getClientIP, h1, h2]
  · intro r' hx hr hpresent
    rcases hpresent with h | h
    · have h' : r'.xForwardedFor ≠ "" := by rw [hx]; exact h
      simp [getClientIP, h, h', hx]
    · by_cases hx0 : r.xForwardedFor = ""
      · have hx0' : r'.xForwardedFor = "" := by rw [hx, hx0]
        have hr' : r'.xRealIP ≠ "" := by rw [hr]; exact h
        simp [getClientIP, hx0, hx0', h, hr, hr']
      · have h' : r'.xForwardedFor ≠ "" := by rw [hx]; exact hx0
        simp [getClientIP, hx0, h', hx]

/-- Witness for C10: with a spoofed X-Forwarded-For present, two requests
from different remote addresses resolve to the same identity. -/
theorem getClientIP_resolution_witness :
    getClientIP ⟨"9.9.9.9", "", "10.0.0.1:443"⟩ =
      getClientIP ⟨"9.9.9.9", "", "172.16.0.2:80"⟩ :=
  (getClientIP_resolution ⟨"9.9.9.9", "", "172.16.0.2:80"⟩).2.2.2
    ⟨"9.9.9.9", "", "10.0.0.1:443"⟩ rfl rfl (Or.inl (by decide))

end RemusSynerge
